import Mathlib

/-!
Shallow embedding of `src/LLM_eval/BedRockLogger/observability.py`
(class `BedrockLogs`): the nested-key finder, the session-identifier
resolver, the trace step annotator (`handle_agent_feature`), the
constructor (`__init__`) and the `watch` wrapper.

Python values are modelled by the inductive `Val`; Python `float`
(`time.time()` results) is modelled by `ℚ` with exact arithmetic, and
`int` / `float` / `bool` / `None` / `str` / `list` / `dict` are kept as
distinct constructors because the code branches on `isinstance`.
Python dicts (insertion-ordered, unique keys) are association lists.
-/

/-- A component of a path returned by `find_keys`: a mapping key or a
sequence index. -/
inductive PathElem where
  | key : String → PathElem
  | idx : Nat → PathElem
deriving DecidableEq, Repr

/-- A Python value as used by the observability module. -/
inductive Val where
  | vNone  : Val
  | vBool  : Bool → Val
  | vInt   : Int → Val
  | vFloat : ℚ → Val
  | vStr   : String → Val
  | vList  : List Val → Val
  | vDict  : List (String × Val) → Val

/-- First value stored under key `k` (Python dict lookup; dicts are
well-formed with unique keys, so the first hit is the value). -/
def dictGet (d : List (String × Val)) (k : String) : Option Val :=
  match d with
  | [] => none
  | (k', v) :: rest => if k' = k then some v else dictGet rest k

/-- Python `k in d` for a dict. -/
def dictHasKey (d : List (String × Val)) (k : String) : Bool :=
  (dictGet d k).isSome

/-- Python `d[k] = v`: replace in place if the key exists (position
preserved), else append at the end. -/
def dictSet (d : List (String × Val)) (k : String) (v : Val) :
    List (String × Val) :=
  match d with
  | [] => [(k, v)]
  | (k', v') :: rest =>
      if k' = k then (k, v) :: rest else (k', v') :: dictSet rest k v

mutual

/-- `BedrockLogs.find_keys` (observability.py lines 52-79): recursive
search for every occurrence of `key` in a nested dict/list tree,
returning (path, value) pairs.  On a dict it appends the match for an
entry whose key equals `key` and recurses only into the values of the
other entries; on a list it recurses into every element; scalars
contribute nothing. -/
def find_keys (v : Val) (key : String) (path : List PathElem) :
    List (List PathElem × Val) :=
  match v with
  | .vDict entries => findKeysDict entries key path
  | .vList items => findKeysList items key path 0
  | _ => []

/-- The dict branch of `find_keys`: iterate entries in insertion order. -/
def findKeysDict (entries : List (String × Val)) (key : String)
    (path : List PathElem) : List (List PathElem × Val) :=
  match entries with
  | [] => []
  | (k, v) :: rest =>
      (if k = key then [(path ++ [.key k], v)]
       else find_keys v key (path ++ [.key k]))
      ++ findKeysDict rest key path

/-- The list branch of `find_keys`: iterate elements with their index. -/
def findKeysList (items : List Val) (key : String) (path : List PathElem)
    (i : Nat) : List (List PathElem × Val) :=
  match items with
  | [] => []
  | item :: rest =>
      find_keys item key (path ++ [.idx i])
      ++ findKeysList rest key path (i + 1)

end

/-- `BedrockLogs.extract_session_id` (lines 116-136).  The feature name
selects the marker key; the first `find_keys` match wins; with no match
the code returns `str(uuid4())`, modelled by the caller-supplied fresh
identifier `freshId` (a fresh random unique string from the standard
library). -/
def extract_session_id (feature_name : Option String) (log_data : Val)
    (freshId : String) : Val :=
  let key := if feature_name = some "Agent" then
    "x-amz-bedrock-agent-session-id" else "sessionId"
  match find_keys log_data key [] with
  | [] => .vStr freshId
  | (_, session_id) :: _ => session_id

/-- A Python exception, as far as the observability module can raise or
propagate one. `userErr` stands for an arbitrary exception raised by the
wrapped target function. -/
inductive PyErr where
  | userErr  : String → PyErr
  | valueErr : String → PyErr
  | typeErr  : String → PyErr
  | keyErr   : String → PyErr
  | indexErr : String → PyErr
deriving DecidableEq, Repr

/-- Does `pat` occur at the head of `l`? (helper for substring search) -/
def leadMatch : List Char → List Char → Bool
  | [], _ => true
  | _ :: _, [] => false
  | a :: as, b :: bs => a == b && leadMatch as bs

/-- Does `pat` occur anywhere in `l`? (Python `sub in str`) -/
def subSearch (pat : List Char) : List Char → Bool
  | [] => pat.isEmpty
  | b :: bs => leadMatch pat (b :: bs) || subSearch pat bs

/-- Python `s in container`: key membership for dicts, element equality
for lists (a string only equals an equal string), substring test for
strings; other receivers raise `TypeError`. -/
def pyContains (container : Val) (s : String) : Except PyErr Bool :=
  match container with
  | .vDict d => .ok (dictHasKey d s)
  | .vList l => .ok (l.any fun x => match x with
      | .vStr t => t == s
      | _ => false)
  | .vStr t => .ok (subSearch s.data t.data)
  | _ => .error (.typeErr "argument is not iterable")

/-- Python `container[s]` with a string subscript: dict lookup
(`KeyError` when absent); lists and strings reject string indices with
`TypeError`, scalars are not subscriptable. -/
def pyGetItemStr (container : Val) (s : String) : Except PyErr Val :=
  match container with
  | .vDict d =>
      match dictGet d s with
      | some v => .ok v
      | none => .error (.keyErr s)
  | _ => .error (.typeErr "indices must be integers")

/-- Python `container[0]`: first element of a list or string
(`IndexError` when empty); a dict raises `KeyError` (our dict keys are
strings, so integer `0` is never present); scalars raise `TypeError`. -/
def pyGetItem0 (container : Val) : Except PyErr Val :=
  match container with
  | .vList [] => .error (.indexErr "list index out of range")
  | .vList (x :: _) => .ok x
  | .vStr t =>
      match t.data with
      | [] => .error (.indexErr "string index out of range")
      | c :: _ => .ok (.vStr (String.mk [c]))
  | .vDict _ => .error (.keyErr "0")
  | _ => .error (.typeErr "object is not subscriptable")

/-- Python truthiness of a value (`if x:`). -/
def pyTruthy : Val → Bool
  | .vNone => false
  | .vBool b => b
  | .vInt n => n != 0
  | .vFloat q => q != 0
  | .vStr s => !s.isEmpty
  | .vList l => !l.isEmpty
  | .vDict d => !d.isEmpty

/-- State threaded through `handle_agent_feature`: the local
`prev_trace_time` variable and the instance attribute
`self.step_counter`. -/
structure AgentState where
  prev : Option ℚ
  counter : Nat
deriving DecidableEq, Repr

/-- The error message of lines 157/175/192 (quotes elided). -/
def startTraceTimeMsg : String :=
  "The key start_trace_time should be present and should be a time.time() object."

/-- One annotation block of `handle_agent_feature` (the identical code
of lines 154-167, 172-185 and 189-202): if `m` contains
`start_trace_time`, require it to be a Python float, then set
`latency` (against `prev_trace_time`, or `request_start_time` for the
first qualifying node) and `step_number` (the current counter), and
advance the state.  A node without the key is left untouched.  Errors
are raised before the counter is incremented for that node. -/
def annotateNode (m : Val) (requestStartTime : ℚ) (st : AgentState) :
    Except PyErr Val × AgentState :=
  match pyContains m "start_trace_time" with
  | .error e => (.error e, st)
  | .ok false => (.ok m, st)
  | .ok true =>
      match pyGetItemStr m "start_trace_time" with
      | .error e => (.error e, st)
      | .ok v =>
          match v with
          | .vFloat t =>
              match m with
              | .vDict d =>
                  let lat : ℚ := match st.prev with
                    | none => t - requestStartTime
                    | some p => t - p
                  let d1 := dictSet d "latency" (.vFloat lat)
                  let d2 := dictSet d1 "step_number" (.vInt st.counter)
                  (.ok (.vDict d2),
                   { prev := some t, counter := st.counter + 1 })
              | _ => (.error (.typeErr "item assignment"), st)
          | _ => (.error (.valueErr startTraceTimeMsg), st)

/-- Lines 171-203: processing of one element of a nested list.  A dict
carrying `start_trace_time` directly is annotated in place; otherwise a
dict with a `trace` member has its trace annotated and written back;
anything else is skipped. -/
def procItem (requestStartTime : ℚ) (item : Val) (st : AgentState) :
    Except PyErr Val × AgentState :=
  match item with
  | .vDict d =>
      if dictHasKey d "start_trace_time" then
        annotateNode (.vDict d) requestStartTime st
      else
        match dictGet d "trace" with
        | some tr =>
            (match annotateNode tr requestStartTime st with
             | (.error e, st') => (.error e, st')
             | (.ok tr', st') => (.ok (.vDict (dictSet d "trace" tr')), st'))
        | none => (.ok (.vDict d), st)
  | _ => (.ok item, st)

/-- The inner `for item in data` loop (lines 171-203), aborting at the
first error with the state reached so far (the Python loop raises with
`self.step_counter` already advanced for earlier items). -/
def procItems (requestStartTime : ℚ) (items : List Val) (st : AgentState) :
    Except PyErr (List Val) × AgentState :=
  match items with
  | [] => (.ok [], st)
  | x :: xs =>
      match procItem requestStartTime x st with
      | (.error e, st') => (.error e, st')
      | (.ok x', st') =>
          match procItems requestStartTime xs st' with
          | (.error e, st'') => (.error e, st'')
          | (.ok xs', st'') => (.ok (x' :: xs'), st'')

/-- Lines 151-203: processing of one top-level element of the output
iterable.  Only a dict containing `trace` (annotated via its trace) or
a nested list (element-wise) is touched; in particular a top-level dict
carrying `start_trace_time` but no `trace` key falls through both
branches untouched. -/
def procTop (requestStartTime : ℚ) (data : Val) (st : AgentState) :
    Except PyErr Val × AgentState :=
  match data with
  | .vDict d =>
      match dictGet d "trace" with
      | some tr =>
          (match annotateNode tr requestStartTime st with
           | (.error e, st') => (.error e, st')
           | (.ok tr', st') => (.ok (.vDict (dictSet d "trace" tr')), st'))
      | none => (.ok (.vDict d), st)
  | .vList items =>
      match procItems requestStartTime items st with
      | (.error e, st') => (.error e, st')
      | (.ok items', st') => (.ok (.vList items'), st')
  | _ => (.ok data, st)

/-- The outer `for data in output_data` loop. -/
def procTops (requestStartTime : ℚ) (datas : List Val) (st : AgentState) :
    Except PyErr (List Val) × AgentState :=
  match datas with
  | [] => (.ok [], st)
  | x :: xs =>
      match procTop requestStartTime x st with
      | (.error e, st') => (.error e, st')
      | (.ok x', st') =>
          match procTops requestStartTime xs st' with
          | (.error e, st'') => (.error e, st'')
          | (.ok xs', st'') => (.ok (x' :: xs'), st'')

/-- Python `for x in v`: the sequence of iterates.  Iterating a dict
yields its keys, iterating a string yields its one-character strings;
scalars are not iterable. -/
def pyIter : Val → Except PyErr (List Val)
  | .vList l => .ok l
  | .vDict d => .ok (d.map fun kv => .vStr kv.1)
  | .vStr s => .ok (s.data.map fun c => .vStr (String.mk [c]))
  | _ => .error (.typeErr "object is not iterable")

/-- `BedrockLogs.handle_agent_feature` (lines 138-205) on an arbitrary
output value, entered with `prev_trace_time = None` and the instance
counter `n`; returns the (functionally) mutated output and the final
state, which on an error is the state at the raise point.  Iterating a
dict or a string yields immutable non-dict, non-list iterates, so the
loop leaves them — and the container — unchanged; the container itself
is returned, matching `return output_data`. -/
def handle_agent_feature (output_data : Val) (request_start_time : ℚ)
    (n : Nat) : Except PyErr Val × AgentState :=
  match pyIter output_data with
  | .error e => (.error e, ⟨none, n⟩)
  | .ok iterates =>
      match output_data with
      | .vList _ =>
          (match procTops request_start_time iterates ⟨none, n⟩ with
           | (.error e, st') => (.error e, st')
           | (.ok items', st') => (.ok (.vList items'), st'))
      | _ =>
          (match procTops request_start_time iterates ⟨none, n⟩ with
           | (.error e, st') => (.error e, st')
           | (.ok _, st') => (.ok output_data, st'))

/-- `BedrockLogs.VALID_FEATURE_NAMES` (line 12). -/
def VALID_FEATURE_NAMES : List String := ["None", "Agent", "KB", "InvokeModel"]

/-- A sink resource touched during construction: boto3 client creation
or the head/create round of `ensure_bucket_exists` (lines 44-50). -/
inductive SinkAction where
  | createS3Client : SinkAction
  | ensureBucket : SinkAction
  | createFirehoseClient : SinkAction
deriving DecidableEq, Repr

/-- The state of a successfully constructed `BedrockLogs` instance. -/
structure Recorder where
  delivery_stream_name : String
  experiment_id : String
  default_call_type : String
  feature_name : Option String
  feedback_variables : Bool
  s3_bucket_name : String
  s3_region : String
  step_counter : Nat
deriving Repr

/-- The feature-name validation of lines 29-31. -/
def featureNameOk : Option String → Bool
  | none => true
  | some fn => VALID_FEATURE_NAMES.contains fn

/-- `BedrockLogs.__init__` (lines 14-50): returns the constructed
instance or the `ValueError` message, together with the list of sink
resources touched, in order.  The checks run in source order: feature
name, then `delivery_stream_name is None`, then `s3_bucket_name is
None` (unconditionally), and only then is a boto3 client created /
the bucket ensured, so every error leaves the action list empty. -/
def bedrockLogsInit (delivery_stream_name : Option String)
    (experiment_id : Option String) (default_call_type : String)
    (feature_name : Option String) (feedback_variables : Bool)
    (s3_bucket_name : Option String) (s3_region : String) :
    Except String Recorder × List SinkAction :=
  if featureNameOk feature_name then
    let experiment_id1 := experiment_id.getD "default_experiment_1"
    match delivery_stream_name with
    | none =>
        (.error "delivery_stream_name must be provided or set equals to local.",
         [])
    | some ds =>
        match s3_bucket_name with
        | none =>
            (.error "s3_bucket_name must be provided if streaming is set equals to s3.",
             [])
        | some bucket =>
            let r : Recorder :=
              ⟨ds, experiment_id1, default_call_type, feature_name,
               feedback_variables, bucket, s3_region, 0⟩
            if ds = "local" then (.ok r, [])
            else if ds = "s3" then (.ok r, [.createS3Client, .ensureBucket])
            else (.ok r, [.createFirehoseClient])
  else
    (.error "Invalid feature_name.", [])

/-- The wall-clock and timestamp readings taken during one `inner`
invocation (lines 211, 224, 227, 236, 242, 281, 298), as parameters:
time and `datetime` are external. -/
structure Clock where
  request_start_time : ℚ
  obs_timestamp : String
  start_time : ℚ
  end_time : ℚ
  logging_start_time : ℚ
  logging_end_time : ℚ
  s3_timestamp : String
deriving Repr

/-- The fresh unique identifiers drawn during one invocation:
`observation_id = str(uuid4())` (line 223) and the uuid that
`extract_session_id` would return on a no-match payload. -/
structure FreshIds where
  observation_id : String
  session_uuid : String
deriving Repr

/-- Abstract stand-in for `datetime.fromtimestamp(t, tz).isoformat()`
(lines 261-262), an external pure formatter of the timestamp. -/
def isoformat (t : ℚ) : String := "utc " ++ reprStr t

/-- Python `call_type or self.default_call_type` (line 266): a `None`
or empty string falls back to the default. -/
def pyOrStr (c : Option String) (d : String) : String :=
  match c with
  | some s => if s.isEmpty then d else s
  | none => d

/-- An optional string attribute as a Python value. -/
def optStrVal : Option String → Val
  | none => .vNone
  | some s => .vStr s

/-- Python `kwargs.get(k, default)`. -/
def kwargsGet (kwargs : List (String × Val)) (k : String) (dflt : Val) :
    Val :=
  match dictGet kwargs k with
  | some v => v
  | none => dflt

/-- Python `metadata.update(v)` for the merge sites of lines 274 and
278: a dict merges entry by entry (last write wins); the other
iterable-of-pairs forms Python would accept are not exercised by this
codebase and are modelled as `TypeError` like the scalar receivers. -/
def dictUpdate (d : List (String × Val)) (v : Val) :
    Except PyErr (List (String × Val)) :=
  match v with
  | .vDict es => .ok (es.foldl (fun acc kv => dictSet acc kv.1 kv.2) d)
  | _ => .error (.typeErr "update requires a mapping")

/-- Metadata assembly and sink dispatch (lines 255-320), shared by all
paths of `inner` once `run_id`, the (possibly annotated) output and the
result are known.  Returns the value handed back to the caller and the
records delivered to S3/Firehose (empty for the local sink, which
performs no I/O). -/
def assembleDispatch (r : Recorder) (call_type : Option String)
    (kwargs : List (String × Val)) (clock : Clock) (ids : FreshIds)
    (result : Val) (input_log : Val) (output_log : Val) (run_id : Val) :
    Except PyErr Val × List Val :=
  let metadata : List (String × Val) :=
    [("experiment_id", .vStr r.experiment_id),
     ("run_id", run_id),
     ("observation_id", .vStr ids.observation_id),
     ("obs_timestamp", .vStr clock.obs_timestamp),
     ("start_time", .vStr (isoformat clock.start_time)),
     ("end_time", .vStr (isoformat clock.end_time)),
     ("duration", .vFloat (clock.end_time - clock.start_time)),
     ("input_log", input_log),
     ("output_log", output_log),
     ("call_type", .vStr (pyOrStr call_type r.default_call_type)),
     ("feature_name", optStrVal r.feature_name),
     ("feedback_enabled", .vBool r.feedback_variables)]
  let am := kwargsGet kwargs "additional_metadata" (.vDict [])
  match (if pyTruthy am then dictUpdate metadata am else .ok metadata) with
  | .error e => (.error e, [])
  | .ok metadata1 =>
      let up := kwargsGet kwargs "user_prompt" (.vDict [])
      match (if pyTruthy up then dictUpdate metadata1 up else .ok metadata1) with
      | .error e => (.error e, [])
      | .ok metadata2 =>
          let metadata3 := dictSet metadata2 "logging_duration"
            (.vFloat (clock.logging_end_time - clock.logging_start_time))
          if r.delivery_stream_name = "local" then
            (.ok (.vList [result, .vDict metadata3]), [])
          else if r.delivery_stream_name = "s3" then
            if r.feedback_variables then
              (.ok (.vList [result, .vDict metadata3]), [.vDict metadata3])
            else
              (.ok result, [.vDict metadata3])
          else
            if r.feedback_variables then
              (.ok (.vList [result, run_id, .vStr ids.observation_id]),
               [.vDict metadata3])
            else
              (.ok result, [.vDict metadata3])

/-- The body of `inner` (lines 209-320), the wrapper that
`BedrockLogs.watch(capture_input, capture_output, call_type)` puts
around the target.  The target call itself is external and enters as
its outcome `func_result`; the clock readings and fresh uuids enter as
parameters.  Returns the wrapper outcome (the value returned to the
caller, or the propagated exception), the records dispatched to
S3/Firehose, and the instance step counter after the call (the counter
reached at the raise point when an error propagates). -/
def watch_inner (r : Recorder) (capture_input capture_output : Bool)
    (call_type : Option String) (args : List Val)
    (kwargs : List (String × Val)) (clock : Clock) (ids : FreshIds)
    (func_result : Except PyErr Val) :
    Except PyErr Val × List Val × Nat :=
  let input_log : Val :=
    if capture_input then
      match args with
      | [] => .vNone
      | a :: _ => a
    else .vNone
  match func_result with
  | .error e => (.error e, [], r.step_counter)
  | .ok result =>
      let output_data : Val := if capture_output then result else .vNone
      if r.feature_name = some "Agent" then
        match output_data with
        | .vNone =>
            let run_id :=
              extract_session_id r.feature_name input_log ids.session_uuid
            (match assembleDispatch r call_type kwargs clock ids result
                input_log output_data run_id with
             | (out, sent) => (out, sent, r.step_counter))
        | od =>
            match handle_agent_feature od clock.request_start_time
                r.step_counter with
            | (.error e, st') => (.error e, [], st'.counter)
            | (.ok od', st') =>
                match pyGetItem0 od' with
                | .error e => (.error e, [], st'.counter)
                | .ok firstElem =>
                    let run_id := extract_session_id r.feature_name
                      firstElem ids.session_uuid
                    (match assembleDispatch r call_type kwargs clock ids
                        result input_log od' run_id with
                     | (out, sent) => (out, sent, st'.counter))
      else
        let run_id :=
          extract_session_id r.feature_name input_log ids.session_uuid
        (match assembleDispatch r call_type kwargs clock ids result
            input_log output_data run_id with
         | (out, sent) => (out, sent, r.step_counter))

/-! ## Specification-side definitions

Extraction of the qualifying trace nodes from an (annotated) output,
their expected latencies/step numbers, and the Python dict invariant
(no duplicate keys) used by the nested-key-finder theorems. -/

/-- The value under `k`, `None` when absent. -/
def dictGetD (d : List (String × Val)) (k : String) : Val :=
  (dictGet d k).getD .vNone

/-- The `(start_trace_time, latency, step_number)` triple of a mapping,
when it qualifies (carries `start_trace_time`). -/
def obsNode (d : List (String × Val)) : List (Val × Val × Val) :=
  if dictHasKey d "start_trace_time" then
    [(dictGetD d "start_trace_time", dictGetD d "latency",
      dictGetD d "step_number")]
  else []

/-- Qualifying-node observation of a `trace` value: only a mapping can
qualify. -/
def obsOfTrace : Val → List (Val × Val × Val)
  | .vDict tr => obsNode tr
  | _ => []

/-- Observations of one element of a nested list, mirroring the
traversal of lines 171-203. -/
def obsItem : Val → List (Val × Val × Val)
  | .vDict d =>
      if dictHasKey d "start_trace_time" then obsNode d
      else
        match dictGet d "trace" with
        | some tr => obsOfTrace tr
        | none => []
  | _ => []

/-- Observations of one top-level element, mirroring lines 151-203. -/
def obsTop : Val → List (Val × Val × Val)
  | .vDict d =>
      match dictGet d "trace" with
      | some tr => obsOfTrace tr
      | none => []
  | .vList items => items.flatMap obsItem
  | _ => []

/-- All qualifying-node observations of an output value, in traversal
order. -/
def obsVal : Val → List (Val × Val × Val)
  | .vList l => l.flatMap obsTop
  | _ => []

/-- The observations the spec predicts for qualifying start times `ts`
(traversal order), baseline `base` and first step number `c`: latency
`t₁ - base`, then `tₖ₊₁ - tₖ`, step numbers `c, c+1, c+2, …`. -/
def expObs (base : ℚ) (c : Nat) : List ℚ → List (Val × Val × Val)
  | [] => []
  | t :: ts =>
      (.vFloat t, .vFloat (t - base), .vInt (c : Int)) :: expObs t (c + 1) ts

/-- The latency baseline of a state: the previous qualifying node's
start time, or the request start time for the first node. -/
def baseOf (requestStartTime : ℚ) : Option ℚ → ℚ
  | none => requestStartTime
  | some p => p

/-- Last element of a list, with a default. -/
def lastD (ts : List ℚ) (b : ℚ) : ℚ :=
  match ts with
  | [] => b
  | t :: rest => lastD rest t

/-- The invariant tying an annotated result to its spec observations:
some start-time list `ts` explains the extracted observations, the
counter advance and the new baseline. -/
def ObsInv (rq : ℚ) (st st' : AgentState)
    (obs : List (Val × Val × Val)) : Prop :=
  ∃ ts : List ℚ, obs = expObs (baseOf rq st.prev) st.counter ts ∧
    st'.counter = st.counter + ts.length ∧
    baseOf rq st'.prev = lastD ts (baseOf rq st.prev)

/-- No duplicate keys among dict entries (the Python dict invariant). -/
def keysNodup : List (String × Val) → Bool
  | [] => true
  | (k, _) :: rest => rest.all (fun kv => kv.1 != k) && keysNodup rest

mutual

/-- Well-formedness of a value tree: every dict in it has pairwise
distinct keys (as Python dicts do). -/
def valWF : Val → Bool
  | .vDict es => keysNodup es && entriesWF es
  | .vList l => itemsWF l
  | _ => true

/-- All entry values are well-formed. -/
def entriesWF : List (String × Val) → Bool
  | [] => true
  | (_, v) :: rest => valWF v && entriesWF rest

/-- All list elements are well-formed. -/
def itemsWF : List Val → Bool
  | [] => true
  | x :: xs => valWF x && itemsWF xs

end

/-! ## Basic dict lemmas -/

theorem dictGet_dictSet_same (d : List (String × Val)) (k : String)
    (v : Val) : dictGet (dictSet d k v) k = some v := by
  induction d with
  | nil => simp [dictSet, dictGet]
  | cons kv rest ih =>
      obtain ⟨k', v'⟩ := kv
      by_cases h : k' = k <;> simp [dictSet, dictGet, h, ih]

theorem dictGet_dictSet_other (d : List (String × Val)) (k k' : String)
    (v : Val) (h : k' ≠ k) :
    dictGet (dictSet d k v) k' = dictGet d k' := by
  induction d with
  | nil => simp [dictSet, dictGet, Ne.symm h]
  | cons kv rest ih =>
      obtain ⟨k1, v1⟩ := kv
      by_cases h1 : k1 = k
      · subst h1
        simp [dictSet, dictGet, Ne.symm h]
      · by_cases h2 : k1 = k' <;> simp [dictSet, dictGet, h1, h2, ih, h]

theorem dictHasKey_dictSet_other (d : List (String × Val)) (k k' : String)
    (v : Val) (h : k' ≠ k) :
    dictHasKey (dictSet d k v) k' = dictHasKey d k' := by
  simp [dictHasKey, dictGet_dictSet_other d k k' v h]

/-! ## ObsInv machinery -/

theorem lastD_append (ts1 ts2 : List ℚ) (b : ℚ) :
    lastD (ts1 ++ ts2) b = lastD ts2 (lastD ts1 b) := by
  induction ts1 generalizing b with
  | nil => simp [lastD]
  | cons t ts ih => simp [lastD, ih]

theorem expObs_append (ts1 ts2 : List ℚ) (b : ℚ) (c : Nat) :
    expObs b c (ts1 ++ ts2) =
      expObs b c ts1 ++ expObs (lastD ts1 b) (c + ts1.length) ts2 := by
  induction ts1 generalizing b c with
  | nil => simp [expObs, lastD]
  | cons t ts ih =>
      simp [expObs, lastD, ih]
      have h : c + 1 + ts.length = c + (ts.length + 1) := by omega
      rw [h]

theorem obsInv_nil (rq : ℚ) (st : AgentState) : ObsInv rq st st [] :=
  ⟨[], by simp [expObs, lastD]⟩

theorem obsInv_comp (rq : ℚ) (st st1 st2 : AgentState)
    (o1 o2 : List (Val × Val × Val)) (h1 : ObsInv rq st st1 o1)
    (h2 : ObsInv rq st1 st2 o2) : ObsInv rq st st2 (o1 ++ o2) := by
  obtain ⟨ts1, e1, c1, b1⟩ := h1
  obtain ⟨ts2, e2, c2, b2⟩ := h2
  refine ⟨ts1 ++ ts2, ?_, ?_, ?_⟩
  · rw [expObs_append, ← e1, ← c1, ← b1, ← e2]
  · rw [c2, c1, List.length_append]; omega
  · rw [lastD_append, ← b1, b2]

/-- Full characterization of a successful `annotateNode`: either the
node does not qualify and nothing changes, or it is a dict with a float
`start_trace_time` and gets `latency`/`step_number` set while the state
advances. -/
theorem annotateNode_ok_cases (m m' : Val) (rq : ℚ) (st st' : AgentState)
    (h : annotateNode m rq st = (.ok m', st')) :
    (m' = m ∧ st' = st ∧
      ∀ d, m = .vDict d → dictHasKey d "start_trace_time" = false) ∨
    (∃ d t, m = .vDict d ∧
      dictGet d "start_trace_time" = some (.vFloat t) ∧
      m' = .vDict (dictSet (dictSet d "latency"
        (.vFloat (t - baseOf rq st.prev))) "step_number"
        (.vInt (st.counter : Int))) ∧
      st' = ⟨some t, st.counter + 1⟩) := by
  cases m with
  | vDict d =>
      by_cases hk : dictHasKey d "start_trace_time"
      · obtain ⟨v, hv⟩ : ∃ v, dictGet d "start_trace_time" = some v := by
          simpa [dictHasKey, Option.isSome_iff_exists] using hk
        cases v with
        | vFloat t =>
            right
            refine ⟨d, t, rfl, hv, ?_⟩
            cases hp : st.prev <;>
              simp [annotateNode, pyContains, pyGetItemStr, hk, hv, hp,
                baseOf] at h <;> simp [baseOf, ← h.1, ← h.2]
        | vNone =>
            simp [annotateNode, pyContains, pyGetItemStr, hk, hv] at h
        | vBool b =>
            simp [annotateNode, pyContains, pyGetItemStr, hk, hv] at h
        | vInt n =>
            simp [annotateNode, pyContains, pyGetItemStr, hk, hv] at h
        | vStr s =>
            simp [annotateNode, pyContains, pyGetItemStr, hk, hv] at h
        | vList l =>
            simp [annotateNode, pyContains, pyGetItemStr, hk, hv] at h
        | vDict es =>
            simp [annotateNode, pyContains, pyGetItemStr, hk, hv] at h
      · left
        simp [annotateNode, pyContains, hk] at h
        exact ⟨h.1.symm, h.2.symm, fun d' hd => by
          cases hd; simpa [dictHasKey] using hk⟩
  | vList l =>
      by_cases hb : l.any (fun x => match x with
          | .vStr t => t == "start_trace_time"
          | _ => false)
      · simp [annotateNode, pyContains, pyGetItemStr, hb] at h
      · simp [annotateNode, pyContains, hb] at h
        exact Or.inl ⟨h.1.symm, h.2.symm, by simp⟩
  | vStr s =>
      by_cases hb : subSearch "start_trace_time".data s.data
      · simp [annotateNode, pyContains, pyGetItemStr, hb] at h
      · simp [annotateNode, pyContains, hb] at h
        exact Or.inl ⟨h.1.symm, h.2.symm, by simp⟩
  | vNone => simp [annotateNode, pyContains] at h
  | vBool b => simp [annotateNode, pyContains] at h
  | vInt n => simp [annotateNode, pyContains] at h
  | vFloat q => simp [annotateNode, pyContains] at h

/-- The observation triple of an annotated dict node. -/
theorem obsNode_annotated (d : List (String × Val)) (t lat : ℚ) (c : Int)
    (hv : dictGet d "start_trace_time" = some (.vFloat t)) :
    obsNode (dictSet (dictSet d "latency" (.vFloat lat)) "step_number"
        (.vInt c)) = [(.vFloat t, .vFloat lat, .vInt c)] := by
  have h1 : dictGet (dictSet (dictSet d "latency" (.vFloat lat))
      "step_number" (.vInt c)) "start_trace_time" = some (.vFloat t) := by
    rw [dictGet_dictSet_other _ _ _ _ (by decide),
      dictGet_dictSet_other _ _ _ _ (by decide), hv]
  have h2 : dictGet (dictSet (dictSet d "latency" (.vFloat lat))
      "step_number" (.vInt c)) "latency" = some (.vFloat lat) := by
    rw [dictGet_dictSet_other _ _ _ _ (by decide), dictGet_dictSet_same]
  have h3 : dictGet (dictSet (dictSet d "latency" (.vFloat lat))
      "step_number" (.vInt c)) "step_number" = some (.vInt c) :=
    dictGet_dictSet_same _ _ _
  simp [obsNode, dictHasKey, dictGetD, h1, h2, h3]


/-- `obsItem` of a directly annotated node. -/
theorem obsItem_annotated (d : List (String × Val)) (t lat : ℚ) (c : Int)
    (hv : dictGet d "start_trace_time" = some (.vFloat t)) :
    obsItem (.vDict (dictSet (dictSet d "latency" (.vFloat lat))
      "step_number" (.vInt c))) = [(.vFloat t, .vFloat lat, .vInt c)] := by
  have hk : dictGet (dictSet (dictSet d "latency" (.vFloat lat))
      "step_number" (.vInt c)) "start_trace_time" = some (.vFloat t) := by
    rw [dictGet_dictSet_other _ "step_number" "start_trace_time" _
        (by decide),
      dictGet_dictSet_other _ "latency" "start_trace_time" _ (by decide),
      hv]
  simp [obsItem, dictHasKey, hk, obsNode_annotated d t lat c hv]

/-- `obsItem` after writing back the trace of a node without a direct
`start_trace_time`. -/
theorem obsItem_traceSet (d : List (String × Val)) (tr' : Val)
    (hs : dictHasKey d "start_trace_time" = false) :
    obsItem (.vDict (dictSet d "trace" tr')) = obsOfTrace tr' := by
  have h1 : dictHasKey (dictSet d "trace" tr') "start_trace_time"
      = false := by
    rw [dictHasKey_dictSet_other _ _ _ _ (by decide)]; exact hs
  simp [obsItem, h1, dictGet_dictSet_same]

/-- `obsTop` after writing back the trace of a top-level element. -/
theorem obsTop_traceSet (d : List (String × Val)) (tr' : Val) :
    obsTop (.vDict (dictSet d "trace" tr')) = obsOfTrace tr' := by
  simp [obsTop, dictGet_dictSet_same]

/-- A non-qualifying trace value contributes no observation. -/
theorem obsOfTrace_skip (tr : Val)
    (hno : ∀ d, tr = .vDict d → dictHasKey d "start_trace_time" = false) :
    obsOfTrace tr = [] := by
  cases tr with
  | vDict trd => simp [obsOfTrace, obsNode, hno trd rfl]
  | vNone => simp [obsOfTrace]
  | vBool b => simp [obsOfTrace]
  | vInt n => simp [obsOfTrace]
  | vFloat q => simp [obsOfTrace]
  | vStr s => simp [obsOfTrace]
  | vList l => simp [obsOfTrace]

/-- `obsOfTrace` of an annotated trace mapping. -/
theorem obsOfTrace_annotated (d : List (String × Val)) (t lat : ℚ)
    (c : Int) (hv : dictGet d "start_trace_time" = some (.vFloat t)) :
    obsOfTrace (.vDict (dictSet (dictSet d "latency" (.vFloat lat))
      "step_number" (.vInt c))) = [(.vFloat t, .vFloat lat, .vInt c)] := by
  simp [obsOfTrace, obsNode_annotated d t lat c hv]

theorem procItem_inv (rq : ℚ) (item item' : Val) (st st' : AgentState)
    (h : procItem rq item st = (.ok item', st')) :
    ObsInv rq st st' (obsItem item') := by
  cases item with
  | vDict d =>
      by_cases hs : dictHasKey d "start_trace_time"
      · simp [procItem, hs] at h
        rcases annotateNode_ok_cases _ _ _ _ _ h with
          ⟨he, hst, hno⟩ | ⟨d0, t, hd0, hv, hm', hst'⟩
        · exact absurd (hno d rfl) (by simp [hs])
        · injection hd0 with hd0
          subst hd0 hm' hst'
          refine ⟨[t], ?_, by simp [lastD], by simp [baseOf, lastD]⟩
          rw [obsItem_annotated d t _ _ hv]
          simp [expObs]
      · have hs' : dictHasKey d "start_trace_time" = false := by
          simpa using hs
        cases htr : dictGet d "trace" with
        | some tr =>
            simp [procItem, hs, htr] at h
            cases ha : annotateNode tr rq st with
            | mk res st1 =>
                cases res with
                | error e => rw [ha] at h; simp at h
                | ok tr' =>
                    rw [ha] at h
                    simp at h
                    obtain ⟨rfl, rfl⟩ := h
                    rcases annotateNode_ok_cases _ _ _ _ _ ha with
                      ⟨he, hst, hno⟩ | ⟨d0, t, hd0, hv, hm', hst'⟩
                    · subst hst
                      rw [obsItem_traceSet d tr' hs', he,
                        obsOfTrace_skip tr hno]
                      apply obsInv_nil
                    · subst hd0 hm' hst'
                      refine ⟨[t], ?_, by simp [lastD],
                        by simp [baseOf, lastD]⟩
                      rw [obsItem_traceSet d _ hs',
                        obsOfTrace_annotated d0 t _ _ hv]
                      simp [expObs]
        | none =>
            simp [procItem, hs, htr] at h
            obtain ⟨rfl, rfl⟩ := h
            simpa [obsItem, hs, htr] using obsInv_nil rq st
  | vNone =>
      simp [procItem] at h; obtain ⟨rfl, rfl⟩ := h
      simpa [obsItem] using obsInv_nil rq st
  | vBool b =>
      simp [procItem] at h; obtain ⟨rfl, rfl⟩ := h
      simpa [obsItem] using obsInv_nil rq st
  | vInt n =>
      simp [procItem] at h; obtain ⟨rfl, rfl⟩ := h
      simpa [obsItem] using obsInv_nil rq st
  | vFloat q =>
      simp [procItem] at h; obtain ⟨rfl, rfl⟩ := h
      simpa [obsItem] using obsInv_nil rq st
  | vStr s =>
      simp [procItem] at h; obtain ⟨rfl, rfl⟩ := h
      simpa [obsItem] using obsInv_nil rq st
  | vList l =>
      simp [procItem] at h; obtain ⟨rfl, rfl⟩ := h
      simpa [obsItem] using obsInv_nil rq st

theorem procItems_inv (rq : ℚ) (items : List Val) (items' : List Val)
    (st st' : AgentState)
    (h : procItems rq items st = (.ok items', st')) :
    ObsInv rq st st' (items'.flatMap obsItem) := by
  induction items generalizing items' st st' with
  | nil =>
      simp [procItems] at h
      obtain ⟨rfl, rfl⟩ := h
      simpa using obsInv_nil rq st
  | cons x xs ih =>
      simp only [procItems] at h
      cases hx : procItem rq x st with
      | mk res1 st1 =>
          cases res1 with
          | error e => rw [hx] at h; simp at h
          | ok x' =>
              rw [hx] at h
              dsimp only at h
              cases hxs : procItems rq xs st1 with
              | mk res2 st2 =>
                  cases res2 with
                  | error e => rw [hxs] at h; simp at h
                  | ok xs' =>
                      rw [hxs] at h
                      simp at h
                      obtain ⟨rfl, rfl⟩ := h
                      have i1 := procItem_inv rq x x' st st1 hx
                      have i2 := ih xs' st1 st2 hxs
                      simpa using obsInv_comp rq st st1 st2 _ _ i1 i2

theorem procTop_inv (rq : ℚ) (data data' : Val) (st st' : AgentState)
    (h : procTop rq data st = (.ok data', st')) :
    ObsInv rq st st' (obsTop data') := by
  cases data with
  | vDict d =>
      cases htr : dictGet d "trace" with
      | some tr =>
          simp [procTop, htr] at h
          cases ha : annotateNode tr rq st with
          | mk res st1 =>
              cases res with
              | error e => rw [ha] at h; simp at h
              | ok tr' =>
                  rw [ha] at h
                  simp at h
                  obtain ⟨rfl, rfl⟩ := h
                  rcases annotateNode_ok_cases _ _ _ _ _ ha with
                    ⟨he, hst, hno⟩ | ⟨d0, t, hd0, hv, hm', hst'⟩
                  · subst hst
                    rw [obsTop_traceSet d tr', he, obsOfTrace_skip tr hno]
                    apply obsInv_nil
                  · subst hd0 hm' hst'
                    refine ⟨[t], ?_, by simp [lastD],
                      by simp [baseOf, lastD]⟩
                    rw [obsTop_traceSet d _,
                      obsOfTrace_annotated d0 t _ _ hv]
                    simp [expObs]
      | none =>
          simp [procTop, htr] at h
          obtain ⟨rfl, rfl⟩ := h
          simpa [obsTop, htr] using obsInv_nil rq st
  | vList items =>
      simp only [procTop] at h
      cases hi : procItems rq items st with
      | mk res st1 =>
          cases res with
          | error e => rw [hi] at h; simp at h
          | ok items' =>
              rw [hi] at h
              simp at h
              obtain ⟨rfl, rfl⟩ := h
              simpa [obsTop] using procItems_inv rq items items' st st1 hi
  | vNone =>
      simp [procTop] at h; obtain ⟨rfl, rfl⟩ := h
      simpa [obsTop] using obsInv_nil rq st
  | vBool b =>
      simp [procTop] at h; obtain ⟨rfl, rfl⟩ := h
      simpa [obsTop] using obsInv_nil rq st
  | vInt n =>
      simp [procTop] at h; obtain ⟨rfl, rfl⟩ := h
      simpa [obsTop] using obsInv_nil rq st
  | vFloat q =>
      simp [procTop] at h; obtain ⟨rfl, rfl⟩ := h
      simpa [obsTop] using obsInv_nil rq st
  | vStr s =>
      simp [procTop] at h; obtain ⟨rfl, rfl⟩ := h
      simpa [obsTop] using obsInv_nil rq st

theorem procTops_inv (rq : ℚ) (datas datas' : List Val)
    (st st' : AgentState)
    (h : procTops rq datas st = (.ok datas', st')) :
    ObsInv rq st st' (datas'.flatMap obsTop) := by
  induction datas generalizing datas' st st' with
  | nil =>
      simp [procTops] at h
      obtain ⟨rfl, rfl⟩ := h
      simpa using obsInv_nil rq st
  | cons x xs ih =>
      simp only [procTops] at h
      cases hx : procTop rq x st with
      | mk res1 st1 =>
          cases res1 with
          | error e => rw [hx] at h; simp at h
          | ok x' =>
              rw [hx] at h
              dsimp only at h
              cases hxs : procTops rq xs st1 with
              | mk res2 st2 =>
                  cases res2 with
                  | error e => rw [hxs] at h; simp at h
                  | ok xs' =>
                      rw [hxs] at h
                      simp at h
                      obtain ⟨rfl, rfl⟩ := h
                      have i1 := procTop_inv rq x x' st st1 hx
                      have i2 := ih xs' st1 st2 hxs
                      simpa using obsInv_comp rq st st1 st2 _ _ i1 i2

/-- Iterating only (immutable) strings — as the loop does when the
output is a dict or a string — annotates nothing and keeps the state. -/
theorem procTops_map_str {α : Type} (rq : ℚ) (f : α → String)
    (l : List α) (st : AgentState) :
    procTops rq (l.map fun a => Val.vStr (f a)) st =
      (.ok (l.map fun a => Val.vStr (f a)), st) := by
  induction l with
  | nil => simp [procTops]
  | cons a l ih => simp [procTops, procTop, ih]

theorem handle_inv (od od' : Val) (rq : ℚ) (n : Nat) (st' : AgentState)
    (h : handle_agent_feature od rq n = (.ok od', st')) :
    ObsInv rq ⟨none, n⟩ st' (obsVal od') := by
  cases od with
  | vList l =>
      simp only [handle_agent_feature, pyIter] at h
      cases hp : procTops rq l ⟨none, n⟩ with
      | mk res st1 =>
          cases res with
          | error e => rw [hp] at h; simp at h
          | ok l' =>
              rw [hp] at h
              simp at h
              obtain ⟨rfl, rfl⟩ := h
              simpa [obsVal] using procTops_inv rq l l' ⟨none, n⟩ st1 hp
  | vDict d =>
      simp only [handle_agent_feature, pyIter] at h
      rw [procTops_map_str rq (fun kv => kv.1) d ⟨none, n⟩] at h
      simp at h
      obtain ⟨rfl, rfl⟩ := h
      simpa [obsVal] using obsInv_nil rq ⟨none, n⟩
  | vStr s =>
      simp only [handle_agent_feature, pyIter] at h
      rw [procTops_map_str rq (fun c => String.mk [c]) s.data ⟨none, n⟩]
        at h
      simp at h
      obtain ⟨rfl, rfl⟩ := h
      simpa [obsVal] using obsInv_nil rq ⟨none, n⟩
  | vNone => simp [handle_agent_feature, pyIter] at h
  | vBool b => simp [handle_agent_feature, pyIter] at h
  | vInt n0 => simp [handle_agent_feature, pyIter] at h
  | vFloat q => simp [handle_agent_feature, pyIter] at h

/-- C1: on a successful run of the Trace Step Annotator entered with
step counter `n`, the qualifying nodes of the annotated output carry,
in traversal order, some start times `ts`; the first one's latency is
its start time minus the request start time, each later one's latency
is its start time minus the previous qualifying start time, and the
step numbers are `n, n+1, n+2, …` (all of which `expObs rq n ts`
encodes), the counter ending at `n + ts.length`. -/
theorem handle_agent_feature_latency_steps (od : Val) (rq : ℚ) (n : Nat)
    (od' : Val) (st' : AgentState)
    (h : handle_agent_feature od rq n = (.ok od', st')) :
    ∃ ts : List ℚ, obsVal od' = expObs rq n ts ∧
      st'.counter = n + ts.length := by
  obtain ⟨ts, he, hc, _⟩ := handle_inv od od' rq n st' h
  exact ⟨ts, by simpa [baseOf] using he, by simpa using hc⟩

/-! ## Concrete fixtures for witnesses and counterexamples -/

/-- A local-sink recorder configured with `feature_name="Agent"`. -/
def agentRecorder : Recorder :=
  ⟨"local", "default_experiment_1", "LLM", some "Agent", false,
   "logging-bucket", "us-east-1", 0⟩

/-- A fixed set of clock readings. -/
def clock0 : Clock := ⟨0, "2026-01-01T00:00:00+00:00", 0, 1, 1, 1,
  "2026-01-01_00-00-00"⟩

/-- A fixed set of fresh identifiers. -/
def ids0 : FreshIds := ⟨"obs-1", "uuid-1"⟩

/-- C6: a failure of the wrapped target propagates out of the wrapper
unmodified, no record is dispatched to any sink, and the step counter
is unchanged. -/
theorem target_error_propagates_unmodified (r : Recorder)
    (ci co : Bool) (ct : Option String) (args : List Val)
    (kwargs : List (String × Val)) (clock : Clock) (ids : FreshIds)
    (e : PyErr) :
    watch_inner r ci co ct args kwargs clock ids (.error e) =
      (.error e, [], r.step_counter) := by
  cases ci <;> rfl

/-- C9: with feature `"Agent"`, capture-output enabled and an empty
list returned by the target, the wrapper raises `IndexError` indexing
the first element of the annotated output, and nothing is dispatched. -/
theorem agent_empty_output_index_error (r : Recorder)
    (hAgent : r.feature_name = some "Agent") (ci : Bool)
    (ct : Option String) (args : List Val)
    (kwargs : List (String × Val)) (clock : Clock) (ids : FreshIds) :
    watch_inner r ci true ct args kwargs clock ids (.ok (.vList [])) =
      (.error (.indexErr "list index out of range"), [],
       r.step_counter) := by
  simp [watch_inner, hAgent, handle_agent_feature, pyIter, procTops,
    pyGetItem0]

theorem agent_empty_output_index_error_witness :
    watch_inner agentRecorder true true none [] [] clock0 ids0
        (.ok (.vList [])) =
      (.error (.indexErr "list index out of range"), [], 0) :=
  agent_empty_output_index_error agentRecorder rfl true none [] []
    clock0 ids0

/-- C5 (counterexample to the claim as stated): a trace node whose
`start_trace_time` is the numeric wall-clock value `1700000000` (a
Python `int`, not a `float`) does trigger the validation error: the
wrapper fails, the result is never returned, nothing is dispatched. -/
theorem numeric_start_trace_time_rejected :
    watch_inner agentRecorder true true none [] [] clock0 ids0
        (.ok (.vList [.vDict [("trace",
          .vDict [("start_trace_time", .vInt 1700000000)])]])) =
      (.error (.valueErr startTraceTimeMsg), [], 0) := by
  rfl

/-- C5 (amended): a qualifying trace node whose `start_trace_time` is
present but not a Python float causes the validation error to
propagate out of the wrapper (the target's result is never returned)
with no record dispatched and the counter unchanged; with a float
value in its place, the annotator succeeds. -/
theorem start_trace_time_requires_float (r : Recorder)
    (hAgent : r.feature_name = some "Agent") (ci : Bool)
    (ct : Option String) (args : List Val)
    (kwargs : List (String × Val)) (clock : Clock) (ids : FreshIds)
    (tr : List (String × Val)) (v : Val)
    (hv : dictGet tr "start_trace_time" = some v)
    (hnf : ∀ q : ℚ, v ≠ .vFloat q) :
    watch_inner r ci true ct args kwargs clock ids
        (.ok (.vList [.vDict [("trace", .vDict tr)]])) =
      (.error (.valueErr startTraceTimeMsg), [], r.step_counter) ∧
    ∀ q : ℚ, handle_agent_feature
        (.vList [.vDict [("trace",
          .vDict (dictSet tr "start_trace_time" (.vFloat q)))]])
        clock.request_start_time r.step_counter =
      (.ok (.vList [.vDict [("trace", .vDict (dictSet (dictSet
          (dictSet tr "start_trace_time" (.vFloat q)) "latency"
          (.vFloat (q - clock.request_start_time))) "step_number"
          (.vInt (r.step_counter : Int))))]]),
       ⟨some q, r.step_counter + 1⟩) := by
  have hk : dictHasKey tr "start_trace_time" = true := by
    simp [dictHasKey, hv]
  constructor
  · cases v with
    | vFloat q => exact absurd rfl (hnf q)
    | vNone =>
        simp [watch_inner, hAgent, handle_agent_feature, pyIter,
          procTops, procTop, annotateNode, pyContains, pyGetItemStr,
          dictGet, dictSet, hk, hv]
    | vBool b =>
        simp [watch_inner, hAgent, handle_agent_feature, pyIter,
          procTops, procTop, annotateNode, pyContains, pyGetItemStr,
          dictGet, dictSet, hk, hv]
    | vInt n =>
        simp [watch_inner, hAgent, handle_agent_feature, pyIter,
          procTops, procTop, annotateNode, pyContains, pyGetItemStr,
          dictGet, dictSet, hk, hv]
    | vStr s =>
        simp [watch_inner, hAgent, handle_agent_feature, pyIter,
          procTops, procTop, annotateNode, pyContains, pyGetItemStr,
          dictGet, dictSet, hk, hv]
    | vList l =>
        simp [watch_inner, hAgent, handle_agent_feature, pyIter,
          procTops, procTop, annotateNode, pyContains, pyGetItemStr,
          dictGet, dictSet, hk, hv]
    | vDict es =>
        simp [watch_inner, hAgent, handle_agent_feature, pyIter,
          procTops, procTop, annotateNode, pyContains, pyGetItemStr,
          dictGet, dictSet, hk, hv]
  · intro q
    have hk2 : dictHasKey (dictSet tr "start_trace_time" (.vFloat q))
        "start_trace_time" = true := by
      simp [dictHasKey, dictGet_dictSet_same]
    simp [handle_agent_feature, pyIter, procTops, procTop,
      annotateNode, pyContains, pyGetItemStr, hk2,
      dictGet_dictSet_same, dictGet, dictSet, baseOf]

theorem start_trace_time_requires_float_witness :
    watch_inner agentRecorder true true none [] [] clock0 ids0
        (.ok (.vList [.vDict [("trace",
          .vDict [("start_trace_time", .vStr "late")])]])) =
      (.error (.valueErr startTraceTimeMsg), [], 0) ∧
    ∀ q : ℚ, handle_agent_feature
        (.vList [.vDict [("trace", .vDict (dictSet
          [("start_trace_time", Val.vStr "late")] "start_trace_time"
          (.vFloat q)))]]) 0 0 =
      (.ok (.vList [.vDict [("trace", .vDict (dictSet (dictSet
          (dictSet [("start_trace_time", Val.vStr "late")]
          "start_trace_time" (.vFloat q)) "latency"
          (.vFloat (q - 0))) "step_number" (.vInt 0)))]]),
       ⟨some q, 1⟩) :=
  start_trace_time_requires_float agentRecorder rfl true none [] []
    clock0 ids0 [("start_trace_time", Val.vStr "late")]
    (Val.vStr "late") rfl (fun q h => by cases h)

/-- C10: a top-level element carrying `start_trace_time` directly but
no `trace` key is left completely unannotated with the state unchanged,
while the same mapping nested inside an inner list is annotated. -/
theorem top_level_direct_start_not_annotated
    (d : List (String × Val)) (t rq : ℚ) (n : Nat)
    (hTrace : dictGet d "trace" = none)
    (hStart : dictGet d "start_trace_time" = some (.vFloat t)) :
    handle_agent_feature (.vList [.vDict d]) rq n =
      (.ok (.vList [.vDict d]), ⟨none, n⟩) ∧
    handle_agent_feature (.vList [.vList [.vDict d]]) rq n =
      (.ok (.vList [.vList [.vDict (dictSet (dictSet d "latency"
          (.vFloat (t - rq))) "step_number" (.vInt (n : Int)))]]),
       ⟨some t, n + 1⟩) := by
  have hk : dictHasKey d "start_trace_time" = true := by
    simp [dictHasKey, hStart]
  constructor
  · simp [handle_agent_feature, pyIter, procTops, procTop, hTrace]
  · simp [handle_agent_feature, pyIter, procTops, procTop, procItems,
      procItem, hk, annotateNode, pyContains, pyGetItemStr, hStart,
      baseOf]

theorem top_level_direct_start_not_annotated_witness :
    handle_agent_feature
        (.vList [.vDict [("start_trace_time", Val.vFloat 4)]]) 1 2 =
      (.ok (.vList [.vDict [("start_trace_time", Val.vFloat 4)]]),
       ⟨none, 2⟩) ∧
    handle_agent_feature
        (.vList [.vList [.vDict [("start_trace_time", Val.vFloat 4)]]])
        1 2 =
      (.ok (.vList [.vList [.vDict (dictSet (dictSet
          [("start_trace_time", Val.vFloat 4)] "latency"
          (.vFloat (4 - 1))) "step_number" (.vInt 2))]]),
       ⟨some 4, 3⟩) :=
  top_level_direct_start_not_annotated
    [("start_trace_time", Val.vFloat 4)] 4 1 2 rfl rfl

theorem handle_agent_feature_latency_steps_witness :
    ∃ ts : List ℚ,
      obsVal (.vList [.vDict [("trace",
          .vDict [("start_trace_time", Val.vFloat 10),
                  ("latency", Val.vFloat (10 - 7)),
                  ("step_number", Val.vInt 5)])],
        .vList [.vDict [("start_trace_time", Val.vFloat 12),
                  ("latency", Val.vFloat (12 - 10)),
                  ("step_number", Val.vInt 6)]]])
        = expObs 7 5 ts ∧
      (AgentState.mk (some 12) 7).counter = 5 + ts.length :=
  handle_agent_feature_latency_steps
    (.vList [.vDict [("trace",
        .vDict [("start_trace_time", Val.vFloat 10)])],
      .vList [.vDict [("start_trace_time", Val.vFloat 12)]]])
    7 5
    (.vList [.vDict [("trace",
        .vDict [("start_trace_time", Val.vFloat 10),
                ("latency", Val.vFloat (10 - 7)),
                ("step_number", Val.vInt 5)])],
      .vList [.vDict [("start_trace_time", Val.vFloat 12),
                ("latency", Val.vFloat (12 - 10)),
                ("step_number", Val.vInt 6)]]])
    ⟨some 12, 7⟩ (by rfl)

/-- C8: a feature name outside `VALID_FEATURE_NAMES` makes construction
fail immediately, with no sink resource touched (no boto3 client
created, no bucket checked or created). -/
theorem invalid_feature_name_rejected_before_sinks (fn : String)
    (hfn : fn ∉ VALID_FEATURE_NAMES) (dsn eid : Option String)
    (dct : String) (fb : Bool) (bn : Option String) (reg : String) :
    bedrockLogsInit dsn eid dct (some fn) fb bn reg =
      (.error "Invalid feature_name.", []) := by
  have h : featureNameOk (some fn) = false := by
    simp [featureNameOk]
    exact hfn
  simp [bedrockLogsInit, h]

theorem invalid_feature_name_rejected_before_sinks_witness :
    bedrockLogsInit (some "s3") none "LLM" (some "Bogus") false
        (some "bucket") "us-east-1" =
      (.error "Invalid feature_name.", []) :=
  invalid_feature_name_rejected_before_sinks "Bogus" (by decide)
    (some "s3") none "LLM" false (some "bucket") "us-east-1"

/-- C4 (counterexample to the claim as stated): choosing the local sink
with no bucket name does not succeed — construction raises the
`s3_bucket_name` configuration error even though the sink is local. -/
theorem local_sink_missing_bucket_fails :
    bedrockLogsInit (some "local") none "LLM" none false none
        "us-east-1" =
      (.error "s3_bucket_name must be provided if streaming is set equals to s3.",
       []) := by
  rfl

/-- C4 (amended): a missing bucket name is a construction-time
configuration error for every sink variant — for any delivery target
(local, object-storage, or streaming) and valid feature name,
construction with no bucket name fails eagerly, touching no sink
resource. -/
theorem missing_bucket_rejected_all_sinks (ds : String)
    (eid : Option String) (dct : String) (fn : Option String)
    (fb : Bool) (reg : String) (hfn : featureNameOk fn = true) :
    bedrockLogsInit (some ds) eid dct fn fb none reg =
      (.error "s3_bucket_name must be provided if streaming is set equals to s3.",
       []) := by
  simp [bedrockLogsInit, hfn]

theorem missing_bucket_rejected_all_sinks_witness :
    bedrockLogsInit (some "my-stream") none "LLM" none false none
        "us-east-1" =
      (.error "s3_bucket_name must be provided if streaming is set equals to s3.",
       []) :=
  missing_bucket_rejected_all_sinks "my-stream" none "LLM" none false
    "us-east-1" rfl

/-- C3: the Session Identifier Resolver searches the payload for
`x-amz-bedrock-agent-session-id` when the feature label is `"Agent"`
and for `sessionId` otherwise (the key written in the statement); when
at least one match exists it returns the value of the first match in
depth-first traversal order; when no match exists it returns the
supplied fresh unique identifier, so distinct fresh identifiers give
distinct results across no-match calls. -/
theorem extract_session_id_resolution (feature_name : Option String)
    (log_data : Val) (u u1 u2 : String) :
    (∀ p v rest,
        find_keys log_data (if feature_name = some "Agent" then
          "x-amz-bedrock-agent-session-id" else "sessionId") [] =
          (p, v) :: rest →
        extract_session_id feature_name log_data u = v) ∧
    (find_keys log_data (if feature_name = some "Agent" then
        "x-amz-bedrock-agent-session-id" else "sessionId") [] = [] →
      extract_session_id feature_name log_data u1 = .vStr u1 ∧
      (u1 ≠ u2 →
        extract_session_id feature_name log_data u1 ≠
          extract_session_id feature_name log_data u2)) := by
  constructor
  · intro p v rest h
    simp [extract_session_id, h]
  · intro h
    refine ⟨by simp [extract_session_id, h], fun hne => ?_⟩
    simp [extract_session_id, h, hne]

theorem extract_session_id_resolution_witness :
    extract_session_id none (.vDict [("sessionId", .vStr "abc")])
      "fresh-1" = .vStr "abc" ∧
    extract_session_id none (.vDict []) "fresh-1" = .vStr "fresh-1" :=
  ⟨(extract_session_id_resolution none
      (.vDict [("sessionId", .vStr "abc")]) "fresh-1" "x" "y").1
      [PathElem.key "sessionId"] (.vStr "abc") [] rfl,
   ((extract_session_id_resolution none (.vDict []) "z" "fresh-1"
      "y").2 rfl).1⟩

/-! ## Step-counter monotonicity -/

theorem annotateNode_counter_le (m : Val) (rq : ℚ) (st : AgentState) :
    st.counter ≤ (annotateNode m rq st).2.counter := by
  unfold annotateNode
  split
  · exact Nat.le_refl _
  · exact Nat.le_refl _
  · split
    · exact Nat.le_refl _
    · split
      · split
        · exact Nat.le_succ _
        · exact Nat.le_refl _
      · exact Nat.le_refl _

theorem procItem_counter_le (rq : ℚ) (x : Val) (st : AgentState) :
    st.counter ≤ (procItem rq x st).2.counter := by
  cases x with
  | vDict d =>
      by_cases hs : dictHasKey d "start_trace_time"
      · simpa [procItem, hs] using annotateNode_counter_le (.vDict d) rq st
      · cases htr : dictGet d "trace" with
        | some tr =>
            have h := annotateNode_counter_le tr rq st
            cases ha : annotateNode tr rq st with
            | mk res st1 =>
                rw [ha] at h
                cases res <;> simpa [procItem, hs, htr, ha] using h
        | none => simp [procItem, hs, htr]
  | vNone => simp [procItem]
  | vBool b => simp [procItem]
  | vInt n => simp [procItem]
  | vFloat q => simp [procItem]
  | vStr s => simp [procItem]
  | vList l => simp [procItem]

theorem procItems_counter_le (rq : ℚ) (items : List Val)
    (st : AgentState) :
    st.counter ≤ (procItems rq items st).2.counter := by
  induction items generalizing st with
  | nil => simp [procItems]
  | cons x xs ih =>
      have h1 := procItem_counter_le rq x st
      cases hx : procItem rq x st with
      | mk res1 st1 =>
          rw [hx] at h1
          cases res1 with
          | error e => simpa [procItems, hx] using h1
          | ok x' =>
              have h2 := ih st1
              cases hxs : procItems rq xs st1 with
              | mk res2 st2 =>
                  rw [hxs] at h2
                  cases res2 <;>
                    simpa [procItems, hx, hxs] using Nat.le_trans h1 h2

theorem procTop_counter_le (rq : ℚ) (x : Val) (st : AgentState) :
    st.counter ≤ (procTop rq x st).2.counter := by
  cases x with
  | vDict d =>
      cases htr : dictGet d "trace" with
      | some tr =>
          have h := annotateNode_counter_le tr rq st
          cases ha : annotateNode tr rq st with
          | mk res st1 =>
              rw [ha] at h
              cases res <;> simpa [procTop, htr, ha] using h
      | none => simp [procTop, htr]
  | vList items =>
      have h := procItems_counter_le rq items st
      cases hi : procItems rq items st with
      | mk res st1 =>
          rw [hi] at h
          cases res <;> simpa [procTop, hi] using h
  | vNone => simp [procTop]
  | vBool b => simp [procTop]
  | vInt n => simp [procTop]
  | vFloat q => simp [procTop]
  | vStr s => simp [procTop]

theorem procTops_counter_le (rq : ℚ) (datas : List Val)
    (st : AgentState) :
    st.counter ≤ (procTops rq datas st).2.counter := by
  induction datas generalizing st with
  | nil => simp [procTops]
  | cons x xs ih =>
      have h1 := procTop_counter_le rq x st
      cases hx : procTop rq x st with
      | mk res1 st1 =>
          rw [hx] at h1
          cases res1 with
          | error e => simpa [procTops, hx] using h1
          | ok x' =>
              have h2 := ih st1
              cases hxs : procTops rq xs st1 with
              | mk res2 st2 =>
                  rw [hxs] at h2
                  cases res2 <;>
                    simpa [procTops, hx, hxs] using Nat.le_trans h1 h2

theorem handle_counter_le (od : Val) (rq : ℚ) (n : Nat) :
    n ≤ (handle_agent_feature od rq n).2.counter := by
  cases od with
  | vList l =>
      have h := procTops_counter_le rq l ⟨none, n⟩
      cases hp : procTops rq l ⟨none, n⟩ with
      | mk res st1 =>
          rw [hp] at h
          cases res <;> simpa [handle_agent_feature, pyIter, hp] using h
  | vDict d =>
      have h := procTops_counter_le rq
        (d.map fun kv => Val.vStr kv.1) ⟨none, n⟩
      cases hp : procTops rq (d.map fun kv => Val.vStr kv.1)
          ⟨none, n⟩ with
      | mk res st1 =>
          rw [hp] at h
          cases res <;> simpa [handle_agent_feature, pyIter, hp] using h
  | vStr s =>
      have h := procTops_counter_le rq
        (s.data.map fun c => Val.vStr (String.mk [c])) ⟨none, n⟩
      cases hp : procTops rq
          (s.data.map fun c => Val.vStr (String.mk [c])) ⟨none, n⟩ with
      | mk res st1 =>
          rw [hp] at h
          cases res <;> simpa [handle_agent_feature, pyIter, hp] using h
  | vNone => simp [handle_agent_feature, pyIter]
  | vBool b => simp [handle_agent_feature, pyIter]
  | vInt n0 => simp [handle_agent_feature, pyIter]
  | vFloat q => simp [handle_agent_feature, pyIter]

/-- C7: a freshly constructed recorder always starts its step counter
at zero (per instance, whatever the configuration), and a wrapped-call
invocation never decreases the counter — so across any sequence of
invocations on one recorder the counter is monotonically
non-decreasing and is never reset. -/
theorem step_counter_monotone_and_zero_init :
    (∀ dsn eid dct fn fb bn reg r acts,
        bedrockLogsInit dsn eid dct fn fb bn reg = (.ok r, acts) →
        r.step_counter = 0) ∧
    (∀ r ci co ct args kwargs clock ids fr,
        r.step_counter ≤
          (watch_inner r ci co ct args kwargs clock ids fr).2.2) := by
  constructor
  · intro dsn eid dct fn fb bn reg r acts h
    unfold bedrockLogsInit at h
    split at h
    · cases dsn with
      | none => simp at h
      | some ds =>
          cases bn with
          | none => simp at h
          | some bucket =>
              simp only at h
              split at h
              · simp at h
                obtain ⟨h1, -⟩ := h
                rw [← h1]
              · split at h <;>
                  · simp at h
                    obtain ⟨h1, -⟩ := h
                    rw [← h1]
    · simp at h
  · intro r ci co ct args kwargs clock ids fr
    cases fr with
    | error e => simp [watch_inner]
    | ok result =>
        by_cases hA : r.feature_name = some "Agent"
        · by_cases hco : co
          · subst hco
            cases result with
            | vNone => simp [watch_inner, hA]
            | vList l =>
                have h := handle_counter_le (.vList l)
                  clock.request_start_time r.step_counter
                cases hh : handle_agent_feature (.vList l)
                    clock.request_start_time r.step_counter with
                | mk res st1 =>
                    rw [hh] at h
                    cases res with
                    | error e => simpa [watch_inner, hA, hh] using h
                    | ok od' =>
                        cases hg : pyGetItem0 od' <;>
                          simpa [watch_inner, hA, hh, hg] using h
            | vBool b =>
                have h := handle_counter_le (.vBool b)
                  clock.request_start_time r.step_counter
                cases hh : handle_agent_feature (.vBool b)
                    clock.request_start_time r.step_counter with
                | mk res st1 =>
                    rw [hh] at h
                    cases res with
                    | error e => simpa [watch_inner, hA, hh] using h
                    | ok od' =>
                        cases hg : pyGetItem0 od' <;>
                          simpa [watch_inner, hA, hh, hg] using h
            | vInt n =>
                have h := handle_counter_le (.vInt n)
                  clock.request_start_time r.step_counter
                cases hh : handle_agent_feature (.vInt n)
                    clock.request_start_time r.step_counter with
                | mk res st1 =>
                    rw [hh] at h
                    cases res with
                    | error e => simpa [watch_inner, hA, hh] using h
                    | ok od' =>
                        cases hg : pyGetItem0 od' <;>
                          simpa [watch_inner, hA, hh, hg] using h
            | vFloat q =>
                have h := handle_counter_le (.vFloat q)
                  clock.request_start_time r.step_counter
                cases hh : handle_agent_feature (.vFloat q)
                    clock.request_start_time r.step_counter with
                | mk res st1 =>
                    rw [hh] at h
                    cases res with
                    | error e => simpa [watch_inner, hA, hh] using h
                    | ok od' =>
                        cases hg : pyGetItem0 od' <;>
                          simpa [watch_inner, hA, hh, hg] using h
            | vStr s =>
                have h := handle_counter_le (.vStr s)
                  clock.request_start_time r.step_counter
                cases hh : handle_agent_feature (.vStr s)
                    clock.request_start_time r.step_counter with
                | mk res st1 =>
                    rw [hh] at h
                    cases res with
                    | error e => simpa [watch_inner, hA, hh] using h
                    | ok od' =>
                        cases hg : pyGetItem0 od' <;>
                          simpa [watch_inner, hA, hh, hg] using h
            | vDict d =>
                have h := handle_counter_le (.vDict d)
                  clock.request_start_time r.step_counter
                cases hh : handle_agent_feature (.vDict d)
                    clock.request_start_time r.step_counter with
                | mk res st1 =>
                    rw [hh] at h
                    cases res with
                    | error e => simpa [watch_inner, hA, hh] using h
                    | ok od' =>
                        cases hg : pyGetItem0 od' <;>
                          simpa [watch_inner, hA, hh, hg] using h
          · have hco' : co = false := by simpa using hco
            subst hco'
            simp [watch_inner, hA]
        · simp [watch_inner, hA]

theorem step_counter_monotone_and_zero_init_witness :
    ∃ r : Recorder,
      bedrockLogsInit (some "local") none "LLM" none false
          (some "bucket") "us-east-1" = (.ok r, []) ∧
      r.step_counter = 0 ∧
      r.step_counter ≤
        (watch_inner r true true none [] [] clock0 ids0
          (.ok (.vList []))).2.2 :=
  ⟨⟨"local", "default_experiment_1", "LLM", none, false, "bucket",
    "us-east-1", 0⟩,
   rfl,
   step_counter_monotone_and_zero_init.1 (some "local") none "LLM" none
     false (some "bucket") "us-east-1" _ [] rfl,
   step_counter_monotone_and_zero_init.2 _ true true none [] [] clock0
     ids0 (.ok (.vList []))⟩

/-! ## Nested-Key Finder: no descent below a match (C2) -/

theorem append_single_cons (path : List PathElem) (a : PathElem)
    (l : List PathElem) : (path ++ [a]) ++ l = path ++ a :: l := by
  simp

theorem heads_match (path : List PathElem) (a b : PathElem)
    (qa qb t : List PathElem)
    (h : (path ++ a :: qa) ++ t = path ++ b :: qb) : a = b := by
  rw [List.append_assoc] at h
  have h' := List.append_cancel_left h
  injection h'

mutual

/-- Every reported path strictly extends the starting path by at least
one component. -/
theorem fkShape (v : Val) (key : String) (path : List PathElem)
    (p : List PathElem) (x : Val) (h : (p, x) ∈ find_keys v key path) :
    ∃ e q, p = path ++ e :: q :=
  match v with
  | .vDict entries => by
      obtain ⟨k2, w2, q, _, hp⟩ :=
        fkShapeDict entries key path p x (by simpa [find_keys] using h)
      exact ⟨.key k2, q, hp⟩
  | .vList items => by
      obtain ⟨j, q, _, hp⟩ :=
        fkShapeList items key path 0 p x (by simpa [find_keys] using h)
      exact ⟨.idx j, q, hp⟩
  | .vNone => by simp [find_keys] at h
  | .vBool b => by simp [find_keys] at h
  | .vInt n => by simp [find_keys] at h
  | .vFloat r => by simp [find_keys] at h
  | .vStr s => by simp [find_keys] at h

/-- Paths reported from a dict start with the key of one of its
entries. -/
theorem fkShapeDict (entries : List (String × Val)) (key : String)
    (path : List PathElem) (p : List PathElem) (x : Val)
    (h : (p, x) ∈ findKeysDict entries key path) :
    ∃ k2 w2 q, (k2, w2) ∈ entries ∧ p = path ++ .key k2 :: q :=
  match entries with
  | [] => by simp [findKeysDict] at h
  | (k, w) :: rest => by
      rw [findKeysDict] at h
      rcases List.mem_append.mp h with hHead | hTail
      · by_cases hk : k = key
        · rw [if_pos hk] at hHead
          simp at hHead
          exact ⟨k, w, [], by simp, by simp [hHead.1]⟩
        · rw [if_neg hk] at hHead
          obtain ⟨e, q, hp⟩ := fkShape w key (path ++ [.key k]) p x hHead
          exact ⟨k, w, e :: q, by simp,
            by rw [hp, append_single_cons]⟩
      · obtain ⟨k2, w2, q, hmem, hp⟩ :=
          fkShapeDict rest key path p x hTail
        exact ⟨k2, w2, q, by simp [hmem], hp⟩

/-- Paths reported from a list slice starting at index `i` start with
an index `≥ i`. -/
theorem fkShapeList (items : List Val) (key : String)
    (path : List PathElem) (i : Nat) (p : List PathElem) (x : Val)
    (h : (p, x) ∈ findKeysList items key path i) :
    ∃ j q, i ≤ j ∧ p = path ++ .idx j :: q :=
  match items with
  | [] => by simp [findKeysList] at h
  | item :: rest => by
      rw [findKeysList] at h
      rcases List.mem_append.mp h with hHead | hTail
      · obtain ⟨e, q, hp⟩ := fkShape item key (path ++ [.idx i]) p x hHead
        exact ⟨i, e :: q, Nat.le_refl i,
          by rw [hp, append_single_cons]⟩
      · obtain ⟨j, q, hj, hp⟩ :=
          fkShapeList rest key path (i + 1) p x hTail
        exact ⟨j, q, by omega, hp⟩

end

mutual

/-- On a well-formed tree, no reported path properly extends another
reported path: the finder never descends into the value of a match. -/
theorem noDescend (v : Val) (key : String) (path : List PathElem)
    (hwf : valWF v = true) (p1 p2 : List PathElem) (x1 x2 : Val)
    (h1 : (p1, x1) ∈ find_keys v key path)
    (h2 : (p2, x2) ∈ find_keys v key path)
    (hpre : ∃ t, p1 ++ t = p2) : p1 = p2 :=
  match v with
  | .vDict entries => by
      rw [valWF, Bool.and_eq_true] at hwf
      exact noDescendDict entries key path hwf.1 hwf.2 p1 p2 x1 x2
        (by simpa [find_keys] using h1) (by simpa [find_keys] using h2)
        hpre
  | .vList items => by
      rw [valWF] at hwf
      exact noDescendList items key path 0 hwf p1 p2 x1 x2
        (by simpa [find_keys] using h1) (by simpa [find_keys] using h2)
        hpre
  | .vNone => by simp [find_keys] at h1
  | .vBool b => by simp [find_keys] at h1
  | .vInt n => by simp [find_keys] at h1
  | .vFloat r => by simp [find_keys] at h1
  | .vStr s => by simp [find_keys] at h1

theorem noDescendDict (entries : List (String × Val)) (key : String)
    (path : List PathElem) (hnd : keysNodup entries = true)
    (hwf : entriesWF entries = true) (p1 p2 : List PathElem)
    (x1 x2 : Val) (h1 : (p1, x1) ∈ findKeysDict entries key path)
    (h2 : (p2, x2) ∈ findKeysDict entries key path)
    (hpre : ∃ t, p1 ++ t = p2) : p1 = p2 :=
  match entries with
  | [] => by simp [findKeysDict] at h1
  | (k, w) :: rest => by
      rw [keysNodup, Bool.and_eq_true] at hnd
      rw [entriesWF, Bool.and_eq_true] at hwf
      rw [findKeysDict] at h1 h2
      have headShape : ∀ p x, (p, x) ∈
          (if k = key then [(path ++ [PathElem.key k], w)]
           else find_keys w key (path ++ [PathElem.key k])) →
          ∃ q, p = path ++ .key k :: q := by
        intro p x hp
        by_cases hk : k = key
        · rw [if_pos hk] at hp
          simp at hp
          exact ⟨[], by simp [hp.1]⟩
        · rw [if_neg hk] at hp
          obtain ⟨e, q, hpe⟩ := fkShape w key (path ++ [.key k]) p x hp
          exact ⟨e :: q, by rw [hpe, append_single_cons]⟩
      have tailShape : ∀ p x, (p, x) ∈ findKeysDict rest key path →
          ∃ k2 q, k2 ≠ k ∧ p = path ++ .key k2 :: q := by
        intro p x hp
        obtain ⟨k2, w2, q, hmem, hpe⟩ := fkShapeDict rest key path p x hp
        refine ⟨k2, q, ?_, hpe⟩
        have := List.all_eq_true.mp hnd.1 (k2, w2) hmem
        simpa using this
      obtain ⟨t, ht⟩ := hpre
      rcases List.mem_append.mp h1 with hH1 | hT1 <;>
        rcases List.mem_append.mp h2 with hH2 | hT2
      · by_cases hk : k = key
        · rw [if_pos hk] at hH1 hH2
          simp at hH1 hH2
          rw [hH1.1, hH2.1]
        · rw [if_neg hk] at hH1 hH2
          exact noDescend w key (path ++ [.key k]) hwf.1 p1 p2 x1 x2
            hH1 hH2 ⟨t, ht⟩
      · obtain ⟨q1, hq1⟩ := headShape p1 x1 hH1
        obtain ⟨k2, q2, hk2, hq2⟩ := tailShape p2 x2 hT2
        rw [hq1, hq2] at ht
        have := heads_match path (.key k) (.key k2) q1 q2 t ht
        injection this with hkk
        exact absurd hkk.symm hk2
      · obtain ⟨k2, q1, hk2, hq1⟩ := tailShape p1 x1 hT1
        obtain ⟨q2, hq2⟩ := headShape p2 x2 hH2
        rw [hq1, hq2] at ht
        have := heads_match path (.key k2) (.key k) q1 q2 t ht
        injection this with hkk
        exact absurd hkk hk2
      · exact noDescendDict rest key path hnd.2 hwf.2 p1 p2 x1 x2
          hT1 hT2 ⟨t, ht⟩

theorem noDescendList (items : List Val) (key : String)
    (path : List PathElem) (i : Nat) (hwf : itemsWF items = true)
    (p1 p2 : List PathElem) (x1 x2 : Val)
    (h1 : (p1, x1) ∈ findKeysList items key path i)
    (h2 : (p2, x2) ∈ findKeysList items key path i)
    (hpre : ∃ t, p1 ++ t = p2) : p1 = p2 :=
  match items with
  | [] => by simp [findKeysList] at h1
  | item :: rest => by
      rw [itemsWF, Bool.and_eq_true] at hwf
      rw [findKeysList] at h1 h2
      have headShape : ∀ p x,
          (p, x) ∈ find_keys item key (path ++ [PathElem.idx i]) →
          ∃ q, p = path ++ .idx i :: q := by
        intro p x hp
        obtain ⟨e, q, hpe⟩ := fkShape item key (path ++ [.idx i]) p x hp
        exact ⟨e :: q, by rw [hpe, append_single_cons]⟩
      have tailShape : ∀ p x,
          (p, x) ∈ findKeysList rest key path (i + 1) →
          ∃ j q, i + 1 ≤ j ∧ p = path ++ .idx j :: q := by
        intro p x hp
        exact fkShapeList rest key path (i + 1) p x hp
      obtain ⟨t, ht⟩ := hpre
      rcases List.mem_append.mp h1 with hH1 | hT1 <;>
        rcases List.mem_append.mp h2 with hH2 | hT2
      · exact noDescend item key (path ++ [.idx i]) hwf.1 p1 p2 x1 x2
          hH1 hH2 ⟨t, ht⟩
      · obtain ⟨q1, hq1⟩ := headShape p1 x1 hH1
        obtain ⟨j, q2, hj, hq2⟩ := tailShape p2 x2 hT2
        rw [hq1, hq2] at ht
        have := heads_match path (.idx i) (.idx j) q1 q2 t ht
        injection this with hij
        omega
      · obtain ⟨j, q1, hj, hq1⟩ := tailShape p1 x1 hT1
        obtain ⟨q2, hq2⟩ := headShape p2 x2 hH2
        rw [hq1, hq2] at ht
        have := heads_match path (.idx j) (.idx i) q1 q2 t ht
        injection this with hij
        omega
      · exact noDescendList rest key path (i + 1) hwf.2 p1 p2 x1 x2
          hT1 hT2 ⟨t, ht⟩

end

/-- C2 (counterexample to the claim as stated): for the tree
`{"a": {"a": "x"}}` and key `"a"`, only the outer occurrence is
reported — the finder does not descend into the value under the
matching key, so the inner occurrence does not appear. -/
theorem find_keys_descends_below_match_counterexample :
    find_keys (.vDict [("a", .vDict [("a", .vStr "x")])]) "a" [] =
      [([PathElem.key "a"], Val.vDict [("a", Val.vStr "x")])] ∧
    ([PathElem.key "a", PathElem.key "a"], Val.vStr "x") ∉
      find_keys (.vDict [("a", .vDict [("a", .vStr "x")])]) "a" [] := by
  have h0 : find_keys (.vDict [("a", .vDict [("a", .vStr "x")])])
      "a" [] =
      [([PathElem.key "a"], Val.vDict [("a", Val.vStr "x")])] := rfl
  refine ⟨h0, ?_⟩
  intro hmem
  rw [h0] at hmem
  simp at hmem

/-- C2 (amended): for every well-formed nested tree (mappings with
unique keys, as Python dicts are) and every target key, the Nested-Key
Finder does not descend into the value stored under a matching key: no
reported path properly extends another reported path, so when the key
occurs again inside the value of a match, the inner occurrence does
not appear in the result. -/
theorem find_keys_no_descent_below_match (v : Val) (key : String)
    (hwf : valWF v = true) (p1 p2 : List PathElem) (x1 x2 : Val)
    (h1 : (p1, x1) ∈ find_keys v key [])
    (h2 : (p2, x2) ∈ find_keys v key [])
    (hpre : ∃ t, p1 ++ t = p2) : p1 = p2 :=
  noDescend v key [] hwf p1 p2 x1 x2 h1 h2 hpre

theorem find_keys_no_descent_below_match_witness :
    [PathElem.key "b", PathElem.key "a"] =
      [PathElem.key "b", PathElem.key "a"] :=
  find_keys_no_descent_below_match
    (.vDict [("a", .vStr "1"), ("b", .vDict [("a", .vStr "2")])]) "a"
    rfl [PathElem.key "b", PathElem.key "a"]
    [PathElem.key "b", PathElem.key "a"] (.vStr "2") (.vStr "2")
    (by simp [find_keys, findKeysDict, findKeysList])
    (by simp [find_keys, findKeysDict, findKeysList])
    ⟨[], rfl⟩
